import Mathlib

/-!
Shallow embedding of the nanobot todo tools (`src/nanobot/agent/tools/todo.py`)
and heartbeat service (`src/nanobot/heartbeat/service.py`), with theorems
checking the natural-language specification against the code.

Python strings are modelled as `List Char`; file contents are passed in as
`Option` values (`none` = the file does not exist); the `async` callbacks of
the heartbeat service are modelled by their outcome (a returned string, a
raised `TypeError`, or any other exception).
-/

namespace Nanobot

/-- Python `str`, modelled as a list of characters. -/
abbrev Str := List Char

/-- The unchecked-task marker `"- [ ]"` (todo.py lines 100 and 154,
service.py line 121). -/
def marker : Str := ['-', ' ', '[', ' ', ']']

/-- The checked-task marker `"- [x]"` (todo.py line 156). -/
def checkedMarker : Str := ['-', ' ', '[', 'x', ']']

/-- Embedding of `line.replace("- [ ]", "- [x]")` (todo.py line 156):
every non-overlapping occurrence, scanned left to right, is replaced. -/
def markReplace : Str → Str
  | '-' :: ' ' :: '[' :: ' ' :: ']' :: rest =>
    '-' :: ' ' :: '[' :: 'x' :: ']' :: markReplace rest
  | c :: cs => c :: markReplace cs
  | [] => []

/-- Number of non-overlapping occurrences of the unchecked marker in a line,
counted the way `str.replace` scans them. -/
def countMarker : Str → Nat
  | '-' :: ' ' :: '[' :: ' ' :: ']' :: rest => countMarker rest + 1
  | _ :: cs => countMarker cs
  | [] => 0

/-- Embedding of Python `str.splitlines()` restricted to the `'\n'`
terminator, the only line terminator this code base writes: the maximal
newline-free chunks, with no empty final chunk for a trailing newline. -/
def splitlines : Str → List Str
  | [] => []
  | c :: cs =>
    if c = '\n' then [] :: splitlines cs
    else
      match splitlines cs with
      | [] => [[c]]
      | l :: ls => (c :: l) :: ls

/-- Embedding of `"\n".join(lines)` (todo.py lines 103, 108 and 164). -/
def joinLines (ls : List Str) : Str := List.intercalate ['\n'] ls

/-- Embedding of Python substring membership `pat in s`: some tail of `s`
starts with `pat`. -/
def isSubstr (pat : Str) : Str → Bool
  | [] => pat.isEmpty
  | c :: cs => pat.isPrefixOf (c :: cs) || isSubstr pat cs

/-- The per-line match test of `TodoCompleteTaskTool.execute` (todo.py line
154): `task_content in line and "- [ ]" in line`. -/
def lineMatches (task_content line : Str) : Bool :=
  isSubstr task_content line && isSubstr marker line

/-- The scan-and-mutate loop of `TodoCompleteTaskTool.execute` (todo.py lines
151-158): the first line satisfying `lineMatches` is replaced by `markReplace`
of itself and the loop breaks; `none` when no line matches (`found = False`). -/
def completeLines (task_content : Str) : List Str → Option (List Str)
  | [] => none
  | line :: rest =>
    if lineMatches task_content line then some (markReplace line :: rest)
    else (completeLines task_content rest).map (fun ls => line :: ls)

/-- `TodoCompleteTaskTool.execute` (todo.py lines 142-167) on the TODO.md
content (`none` models a missing file). First component: the content written
back, `none` when no write happens; second: the returned message. -/
def completeTaskExecute (fileContent : Option Str) (task_content : Str) :
    Option Str × Str :=
  match fileContent with
  | none => (none, "Error: TODO.md file not found.".toList)
  | some content =>
    match completeLines task_content (splitlines content) with
    | none =>
      (none, "Error: Task containing \x27".toList ++ task_content
        ++ "\x27 not found in TODO.md".toList)
    | some newLines =>
      (some (joinLines newLines),
        "Task marked as completed: \x27".toList ++ task_content
          ++ "\x27".toList)

/-- The default content `"# TODO\n\n"` with which `TodoAddTaskTool.execute`
creates a missing TODO.md (todo.py line 50). -/
def todoHeader : Str := "# TODO\n\n".toList

/-- The appended task line `"- [ ] [{priority}] {task}"` (todo.py line 54),
without its terminating newline. -/
def taskLine (task priority : Str) : Str :=
  "- [ ] [".toList ++ priority ++ "] ".toList ++ task

/-- `TodoAddTaskTool.execute` (todo.py lines 45-58) on the TODO.md content:
first component the new file content, second the returned message. -/
def addTaskExecute (fileContent : Option Str) (task priority : Str) :
    Str × Str :=
  (fileContent.getD todoHeader ++ taskLine task priority ++ ['\n'],
    "Task added: \x27".toList ++ task ++ "\x27 with priority ".toList
      ++ priority)

/-- The pending filter of `TodoListTasksTool.execute` (todo.py line 100):
the lines containing `"- [ ]"`. -/
def pendingLines (lines : List Str) : List Str :=
  lines.filter (fun line => isSubstr marker line)

/-- `TodoListTasksTool.execute` (todo.py lines 89-110) on the TODO.md
content: the returned message. -/
def listTasksExecute (fileContent : Option Str) (only_pending : Bool) : Str :=
  match fileContent with
  | none => "No TODO.md file found. No tasks to list.".toList
  | some content =>
    let lines := splitlines content
    if only_pending then
      let pending := pendingLines lines
      if pending.isEmpty then "No pending tasks found.".toList
      else "Pending tasks:\n".toList ++ joinLines pending
    else
      if lines.isEmpty then "TODO.md is empty.".toList
      else "All tasks:\n".toList ++ joinLines lines

/-- The `except Exception` wrapper of `TodoAddTaskTool.execute` (todo.py lines
47 and 57-58): `ioError = some e` models an exception with text `e` raised by
either file write inside the `try` block; the handler turns it into the
returned error string, so nothing is raised to the caller. -/
def addTaskResult (fileContent : Option Str) (task priority : Str)
    (ioError : Option Str) : Str :=
  match ioError with
  | some e => "Error adding task: ".toList ++ e
  | none => (addTaskExecute fileContent task priority).2

/-- The `except Exception` wrapper of `TodoListTasksTool.execute` (todo.py
lines 91 and 109-110): `ioError = some e` models an exception raised by the
file read inside the `try` block. -/
def listTasksResult (fileContent : Option Str) (only_pending : Bool)
    (ioError : Option Str) : Str :=
  match ioError with
  | some e => "Error listing tasks: ".toList ++ e
  | none => listTasksExecute fileContent only_pending

/-- The `except Exception` wrapper of `TodoCompleteTaskTool.execute` (todo.py
lines 144 and 166-167): `ioError = some e` models an exception raised by the
file read or the write-back inside the `try` block. -/
def completeTaskResult (fileContent : Option Str) (task_content : Str)
    (ioError : Option Str) : Str :=
  match ioError with
  | some e => "Error completing task: ".toList ++ e
  | none => (completeTaskExecute fileContent task_content).2

/-- Outcome of awaiting the `on_heartbeat` callback: a returned response, a
raised `TypeError` (the arity-mismatch signal), or any other exception. -/
inductive CallOutcome where
  | ok (response : Str)
  | typeError
  | otherError
deriving DecidableEq

/-- A bound `on_heartbeat` callback, modelled by its behaviour under the
three-argument call shape `(prompt, channel, chat_id)` and under the
one-argument shape `(prompt)`. -/
structure Callback where
  call3 : Str → Str → Str → CallOutcome
  call1 : Str → CallOutcome

/-- `HEARTBEAT_PROMPT` (service.py lines 13-15). -/
def HEARTBEAT_PROMPT : Str :=
  ("Read HEARTBEAT.md in your workspace (if it exists).\n"
    ++ "Follow any instructions or tasks listed there.\n"
    ++ "If nothing needs attention, reply with just: HEARTBEAT_OK").toList

/-- The proactive wake-up prompt built around the raw TODO.md content
(service.py lines 124-128). -/
def proactivePrompt (content : Str) : Str :=
  "SYSTEM_WAKEUP: Pending tasks detected in TODO.md:\n\n".toList ++ content
    ++ ("\n\nInstruction: Check these tasks. If action is required, execute"
      ++ " it. If a task is completed, use \x27complete_task\x27 tool to"
      ++ " mark it [x].").toList

/-- Python `str.strip()`: whitespace dropped from both ends. -/
def stripChars (l : Str) : Str :=
  ((l.dropWhile Char.isWhitespace).reverse.dropWhile Char.isWhitespace).reverse

/-- `skip_patterns` (service.py line 27). -/
def skipPatterns : List Str :=
  ["- [ ]".toList, "* [ ]".toList, "- [x]".toList, "* [x]".toList]

/-- One stripped-line test of the `_is_heartbeat_empty` loop (service.py
line 31): empty, a heading, an HTML comment opener, or a bare checkbox. -/
def lineSkippable (rawLine : Str) : Bool :=
  let line := stripChars rawLine
  line.isEmpty || ['#'].isPrefixOf line || "<!--".toList.isPrefixOf line
    || skipPatterns.contains line

/-- The loop of `_is_heartbeat_empty` (service.py lines 29-35): `false` at
the first line that is not skippable. -/
def heartbeatEmptyLoop : List Str → Bool
  | [] => true
  | rawLine :: rest =>
    if lineSkippable rawLine then heartbeatEmptyLoop rest else false

/-- `_is_heartbeat_empty` (service.py lines 21-35); `none` models `None`,
and `if not content` also catches the empty string. -/
def isHeartbeatEmpty : Option Str → Bool
  | none => true
  | some content =>
    if content.isEmpty then true
    else heartbeatEmptyLoop (content.splitOn '\n')

/-- Result of the `try/except TypeError` proactive invocation (service.py
lines 131-138): a `TypeError` from the three-argument call triggers the
one-argument retry; any other outcome stands. A `typeError` or `otherError`
result therefore propagates out of the block. -/
def proactiveCall (cb : Callback) (prompt channel chatId : Str) : CallOutcome :=
  match cb.call3 prompt channel chatId with
  | CallOutcome.typeError => cb.call1 prompt
  | r => r

/-- The scheduler configuration and file-system snapshot one tick sees.
`todoRead`: `none` = TODO.md does not exist, `some none` = it exists but
`read_text` raises (the code then uses `""`), `some (some c)` = content `c`.
`heartbeatFile` is what `_read_heartbeat_file` returns (`none` for a missing
or unreadable HEARTBEAT.md). -/
structure TickEnv where
  proactive_enabled : Bool
  proactive_channel : Str
  proactive_chat_id : Str
  on_heartbeat : Option Callback
  todoRead : Option (Option Str)
  heartbeatFile : Option Str

/-- What one `_tick` did: the final outcome of the proactive invocation
(`none` when it was not attempted), whether an exception escaped `_tick`,
whether control reached step 2 (the HEARTBEAT.md check, service.py line 141),
and whether the step-2 callback invocation was entered. -/
structure TickTrace where
  proactiveOutcome : Option CallOutcome
  raised : Bool
  reachedStep2 : Bool
  step2Called : Bool
deriving DecidableEq

/-- Step 1 of `HeartbeatService._tick` (service.py lines 110-138): the
proactive block runs when TODO.md exists, its content (empty after a read
error) contains the unchecked marker, `proactive_enabled` is true,
`proactive_chat_id` is non-empty (Python truthiness) and a callback is
bound; `none` when it was not attempted, otherwise the `proactiveCall`
outcome. -/
def tickProactiveOutcome (env : TickEnv) : Option CallOutcome :=
  match env.todoRead with
  | none => none
  | some r =>
    let content := r.getD []
    if isSubstr marker content && env.proactive_enabled
        && !env.proactive_chat_id.isEmpty then
      match env.on_heartbeat with
      | some cb =>
        some (proactiveCall cb (proactivePrompt content)
          env.proactive_channel env.proactive_chat_id)
      | none => none
    else none

/-- `HeartbeatService._tick` (service.py lines 108-161). Only a `TypeError`
from the three-argument proactive call is caught in step 1 (service.py line
135); any other exception there, and any exception from the one-argument
retry, propagates out of `_tick` before step 2 runs. In step 2 every
callback exception is caught (service.py lines 160-161). -/
def tick (env : TickEnv) : TickTrace :=
  let proactiveOutcome := tickProactiveOutcome env
  match proactiveOutcome with
  | some CallOutcome.typeError =>
    { proactiveOutcome := proactiveOutcome, raised := true,
      reachedStep2 := false, step2Called := false }
  | some CallOutcome.otherError =>
    { proactiveOutcome := proactiveOutcome, raised := true,
      reachedStep2 := false, step2Called := false }
  | _ =>
    if isHeartbeatEmpty env.heartbeatFile then
      { proactiveOutcome := proactiveOutcome, raised := false,
        reachedStep2 := true, step2Called := false }
    else
      match env.on_heartbeat with
      | some _ =>
        { proactiveOutcome := proactiveOutcome, raised := false,
          reachedStep2 := true, step2Called := true }
      | none =>
        { proactiveOutcome := proactiveOutcome, raised := false,
          reachedStep2 := true, step2Called := false }

/-- `HeartbeatService.trigger_now` (service.py lines 163-172): the
one-argument call first; a `TypeError` triggers the three-argument call with
the placeholders `"cli"` and `"trigger"`. `none` models the `return None`
when no callback is bound; otherwise the outcome (an `ok` response is
returned to the caller, an error outcome propagates). -/
def triggerNow (onHeartbeat : Option Callback) : Option CallOutcome :=
  match onHeartbeat with
  | none => none
  | some cb =>
    match cb.call1 HEARTBEAT_PROMPT with
    | CallOutcome.typeError =>
      some (cb.call3 HEARTBEAT_PROMPT "cli".toList "trigger".toList)
    | r => some r

/-- The `_running` and `_task` lifecycle fields of `HeartbeatService`
(service.py lines 63-64): `hasTask` is whether `_task` is not `None`. -/
structure SchedState where
  running : Bool
  hasTask : Bool
deriving DecidableEq

/-- `HeartbeatService.stop` (service.py lines 89-94): clears the running
flag, cancels the task when one is recorded and clears the handle. The
second component reports whether a cancellation was signalled to the loop
task. `stop` is straight-line code: it raises nothing. -/
def stop (s : SchedState) : SchedState × Bool :=
  ({ running := false, hasTask := false }, s.hasTask)

/-- How the `await self._tick()` call ends, as seen by `_run_loop`. -/
inductive TickExc where
  | noExc
  | cancelledExc
  | otherExc
deriving DecidableEq

/-- What one pass of `_run_loop` (service.py lines 96-106) does. -/
inductive LoopStepResult where
  | exitedWhile
  | exitedCancelled
  | exitedTickCancelled
  | continues (tickRan : Bool)
deriving DecidableEq

/-- Whether the pass ran `_tick`. -/
def LoopStepResult.ranTick : LoopStepResult → Bool
  | .exitedTickCancelled => true
  | .continues b => b
  | _ => false

/-- One pass of `_run_loop` (service.py lines 96-106): the `while` test on
`_running`; the inter-tick sleep, where `sleepCancelled` means the task was
cancelled while suspended there so the `await` raises
`asyncio.CancelledError`, caught by the `break` arm; the re-check of
`_running` after the sleep; and the tick, whose `CancelledError` breaks the
loop while any other exception is logged and the loop continues. -/
def loopStep (runningAtCheck sleepCancelled runningAfterSleep : Bool)
    (tickExc : TickExc) : LoopStepResult :=
  if !runningAtCheck then .exitedWhile
  else if sleepCancelled then .exitedCancelled
  else if runningAfterSleep then
    match tickExc with
    | .cancelledExc => .exitedTickCancelled
    | _ => .continues true
  else .continues false

/-- One marker occurrence rewritten in place with all other text kept: `new`
is `old` with a single `"- [ ]"` replaced by `"- [x]"` and everything else
unchanged. -/
def spliceMarked (old new : Str) : Prop :=
  ∃ pre post, old = pre ++ marker ++ post ∧ new = pre ++ checkedMarker ++ post

/-- Claim C1 read at one file content and search string: whenever line `i`
is the only pending line containing `task_content`, the content written back
is the original lines with line `i` alone rewritten by a single in-place
marker splice that keeps all other text on the line. -/
def claimC1At (content task_content : Str) : Prop :=
  ∀ i,
    i < (splitlines content).length →
    lineMatches task_content ((splitlines content).getD i []) = true →
    (∀ j, j < (splitlines content).length → j ≠ i →
      lineMatches task_content ((splitlines content).getD j []) = false) →
    ∃ newLine, spliceMarked ((splitlines content).getD i []) newLine ∧
      (completeTaskExecute (some content) task_content).1 =
        some (joinLines ((splitlines content).set i newLine))

/-! ## Helper lemmas -/

theorem isSubstr_iff (pat s : Str) : isSubstr pat s = true ↔ pat <:+: s := by
  induction s with
  | nil => simp [isSubstr, List.infix_nil, List.isEmpty_iff]
  | cons c cs ih =>
    simp [isSubstr, List.infix_cons_iff, List.isPrefixOf_iff_prefix, ih]

theorem markReplace_append_marker (rest : Str) :
    markReplace (marker ++ rest) = checkedMarker ++ markReplace rest := rfl

theorem markReplace_cons_of_ne (c : Char) (cs : Str)
    (h : ∀ rest, c = '-' → cs = ' ' :: '[' :: ' ' :: ']' :: rest → False) :
    markReplace (c :: cs) = c :: markReplace cs := by
  rw [markReplace.eq_def]
  split
  · rename_i rest heq
    rw [List.cons.injEq] at heq
    exact (h rest heq.1 heq.2).elim
  · rename_i c2 cs2 hne2 heq
    rw [List.cons.injEq] at heq
    rw [heq.1, heq.2]
  · rename_i heq
    exact absurd heq (List.cons_ne_nil c cs)

theorem countMarker_append_marker (rest : Str) :
    countMarker (marker ++ rest) = countMarker rest + 1 := rfl

theorem countMarker_cons_of_ne (c : Char) (cs : Str)
    (h : ∀ rest, c = '-' → cs = ' ' :: '[' :: ' ' :: ']' :: rest → False) :
    countMarker (c :: cs) = countMarker cs := by
  rw [countMarker.eq_def]
  split
  · rename_i rest heq
    rw [List.cons.injEq] at heq
    exact (h rest heq.1 heq.2).elim
  · rename_i c2 cs2 hne2 heq
    rw [List.cons.injEq] at heq
    rw [heq.2]
  · rename_i heq
    exact absurd heq (List.cons_ne_nil c cs)

theorem markReplace_of_countMarker_zero (l : Str) (h : countMarker l = 0) :
    markReplace l = l := by
  induction l using markReplace.induct with
  | case1 rest ih =>
    rw [show ('-' :: ' ' :: '[' :: ' ' :: ']' :: rest) = marker ++ rest from rfl,
      countMarker_append_marker] at h
    exact absurd h (Nat.succ_ne_zero _)
  | case2 c cs hne ih =>
    rw [countMarker_cons_of_ne c cs hne] at h
    rw [markReplace_cons_of_ne c cs hne, ih h]
  | case3 => rfl

theorem spliceMarked_markReplace (l : Str) (h : countMarker l = 1) :
    spliceMarked l (markReplace l) := by
  induction l using markReplace.induct with
  | case1 rest ih =>
    rw [show ('-' :: ' ' :: '[' :: ' ' :: ']' :: rest) = marker ++ rest from rfl,
      countMarker_append_marker] at h
    have h0 : countMarker rest = 0 := by omega
    refine ⟨[], rest, rfl, ?_⟩
    rw [show ('-' :: ' ' :: '[' :: ' ' :: ']' :: rest) = marker ++ rest from rfl,
      markReplace_append_marker, markReplace_of_countMarker_zero rest h0]
    rfl
  | case2 c cs hne ih =>
    rw [countMarker_cons_of_ne c cs hne] at h
    obtain ⟨pre, post, h1, h2⟩ := ih h
    refine ⟨c :: pre, post, by rw [h1]; rfl, ?_⟩
    rw [markReplace_cons_of_ne c cs hne, h2]
    rfl
  | case3 => exact absurd h (by decide)

theorem prefix_of_markReplace (cs : Str) :
    ∀ pat : Str, '-' ∉ pat → pat <+: markReplace cs → pat <+: cs := by
  induction cs using markReplace.induct with
  | case1 rest ih =>
    intro pat hd hp
    match pat, hp with
    | [], _ => exact List.nil_prefix
    | p :: ps, hp =>
      rw [show markReplace ('-' :: ' ' :: '[' :: ' ' :: ']' :: rest)
          = '-' :: ' ' :: '[' :: 'x' :: ']' :: markReplace rest from rfl,
        List.cons_prefix_cons] at hp
      exact absurd hp.1 (fun hc => hd (hc ▸ List.mem_cons_self p ps))
  | case2 c cs hne ih =>
    intro pat hd hp
    match pat, hp with
    | [], _ => exact List.nil_prefix
    | p :: ps, hp =>
      rw [markReplace_cons_of_ne c cs hne, List.cons_prefix_cons] at hp
      have hd' : '-' ∉ ps := fun hmem => hd (List.mem_cons_of_mem p hmem)
      exact List.cons_prefix_cons.mpr ⟨hp.1, ih ps hd' hp.2⟩
  | case3 =>
    intro pat hd hp
    exact hp

theorem marker_not_infix_markReplace (l : Str) : ¬ marker <:+: markReplace l := by
  induction l using markReplace.induct with
  | case1 rest ih =>
    intro h
    rw [show markReplace ('-' :: ' ' :: '[' :: ' ' :: ']' :: rest)
        = '-' :: ' ' :: '[' :: 'x' :: ']' :: markReplace rest from rfl] at h
    rcases List.infix_cons_iff.mp h with h1 | h
    · simp only [marker, List.cons_prefix_cons] at h1
      exact absurd h1.2.2.2.1 (by decide)
    rcases List.infix_cons_iff.mp h with h1 | h
    · simp only [marker, List.cons_prefix_cons] at h1
      exact absurd h1.1 (by decide)
    rcases List.infix_cons_iff.mp h with h1 | h
    · simp only [marker, List.cons_prefix_cons] at h1
      exact absurd h1.1 (by decide)
    rcases List.infix_cons_iff.mp h with h1 | h
    · simp only [marker, List.cons_prefix_cons] at h1
      exact absurd h1.1 (by decide)
    rcases List.infix_cons_iff.mp h with h1 | h
    · simp only [marker, List.cons_prefix_cons] at h1
      exact absurd h1.1 (by decide)
    exact ih h
  | case2 c cs hne ih =>
    intro h
    rw [markReplace_cons_of_ne c cs hne] at h
    rcases List.infix_cons_iff.mp h with h | h
    · match h with
      | ⟨t, ht⟩ =>
        rw [show marker ++ t = '-' :: (' ' :: '[' :: ' ' :: ']' :: t) from rfl,
          List.cons.injEq] at ht
        have hps : ([' ', '[', ' ', ']'] : Str) <+: markReplace cs := ⟨t, ht.2⟩
        have hcs := prefix_of_markReplace cs [' ', '[', ' ', ']'] (by decide) hps
        match hcs with
        | ⟨t2, ht2⟩ => exact hne t2 ht.1.symm ht2.symm
    · exact ih h
  | case3 =>
    intro h
    rw [show markReplace [] = ([] : Str) from rfl, List.infix_nil] at h
    exact absurd h (by decide)

theorem isSubstr_marker_markReplace (l : Str) :
    isSubstr marker (markReplace l) = false := by
  rw [← Bool.not_eq_true, isSubstr_iff]
  exact marker_not_infix_markReplace l

theorem completeLines_eq_of_first (tc : Str) (lines : List Str) (i : Nat)
    (hi : i < lines.length)
    (hm : lineMatches tc (lines.getD i []) = true)
    (hprev : ∀ j, j < i → lineMatches tc (lines.getD j []) = false) :
    completeLines tc lines = some (lines.set i (markReplace (lines.getD i []))) := by
  induction lines generalizing i with
  | nil => exact absurd hi (by simp)
  | cons l rest ih =>
    cases i with
    | zero =>
      simp only [List.getD_cons_zero] at hm
      simp [completeLines, hm]
    | succ k =>
      have h0 : lineMatches tc l = false := by
        have := hprev 0 (Nat.succ_pos k)
        simpa using this
      simp only [List.getD_cons_succ] at hm ⊢
      have hk : k < rest.length := by simpa using hi
      have hp : ∀ j, j < k → lineMatches tc (rest.getD j []) = false := by
        intro j hj
        have := hprev (j + 1) (by omega)
        simpa using this
      simp [completeLines, h0, ih k hk hm hp, List.set_cons_succ]

theorem completeLines_eq_none (tc : Str) (lines : List Str)
    (h : ∀ l ∈ lines, lineMatches tc l = false) :
    completeLines tc lines = none := by
  induction lines with
  | nil => rfl
  | cons l rest ih =>
    have h0 := h l (List.mem_cons_self l rest)
    simp [completeLines, h0, ih (fun x hx => h x (List.mem_cons_of_mem l hx))]

theorem splitlines_nfree (s : Str) : ∀ l ∈ splitlines s, '\n' ∉ l := by
  induction s with
  | nil => simp [splitlines]
  | cons c cs ih =>
    by_cases hc : c = '\n'
    · subst hc
      simp only [splitlines, if_pos rfl]
      intro l hl
      rcases List.mem_cons.mp hl with h | h
      · simp [h]
      · exact ih l h
    · simp only [splitlines, if_neg hc]
      cases hsp : splitlines cs with
      | nil =>
        intro l hl
        simp only [List.mem_singleton] at hl
        subst hl
        simp [Ne.symm hc]
      | cons l0 ls =>
        intro l hl
        rcases List.mem_cons.mp hl with h | h
        · subst h
          intro hmem
          rcases List.mem_cons.mp hmem with h | h
          · exact hc h.symm
          · exact ih l0 (hsp ▸ List.mem_cons_self l0 ls) h
        · exact ih l (hsp ▸ List.mem_cons_of_mem l0 h)

theorem markReplace_nfree (l : Str) (h : '\n' ∉ l) : '\n' ∉ markReplace l := by
  induction l using markReplace.induct with
  | case1 rest ih =>
    rw [show markReplace ('-' :: ' ' :: '[' :: ' ' :: ']' :: rest)
        = '-' :: ' ' :: '[' :: 'x' :: ']' :: markReplace rest from rfl]
    simp only [List.mem_cons, not_or] at h ⊢
    exact ⟨h.1, h.2.1, h.2.2.1, by decide, h.2.2.2.2.1,
      fun hm => (ih h.2.2.2.2.2) hm⟩
  | case2 c cs hne ih =>
    rw [markReplace_cons_of_ne c cs hne]
    simp only [List.mem_cons, not_or] at h ⊢
    exact ⟨h.1, ih h.2⟩
  | case3 =>
    rw [show markReplace [] = ([] : Str) from rfl]
    simp

theorem splitlines_nfree_whole (a : Str) (h : '\n' ∉ a) :
    splitlines a = if a.isEmpty then [] else [a] := by
  induction a with
  | nil => rfl
  | cons c cs ih =>
    simp only [List.mem_cons, not_or] at h
    have hc : ¬ c = '\n' := fun hc => h.1 hc.symm
    simp only [splitlines, if_neg hc, List.isEmpty_cons, Bool.false_eq_true,
      if_false]
    rw [ih h.2]
    cases cs with
    | nil => simp
    | cons d ds => simp

theorem splitlines_append_newline (a t : Str) (h : '\n' ∉ a) :
    splitlines (a ++ '\n' :: t) = a :: splitlines t := by
  induction a with
  | nil => simp [splitlines]
  | cons c cs ih =>
    simp only [List.mem_cons, not_or] at h
    have hc : ¬ c = '\n' := fun hc => h.1 hc.symm
    simp only [List.cons_append, splitlines, if_neg hc, List.append_eq, ih h.2]

theorem joinLines_nil : joinLines [] = [] := rfl

theorem joinLines_single (a : Str) : joinLines [a] = a := by
  simp [joinLines, List.intercalate]

theorem joinLines_cons_cons (a b : Str) (rest : List Str) :
    joinLines (a :: b :: rest) = a ++ '\n' :: joinLines (b :: rest) := by
  simp [joinLines, List.intercalate, List.intersperse]

theorem mem_splitlines_joinLines (ls : List Str)
    (hfree : ∀ l ∈ ls, '\n' ∉ l) :
    ∀ x ∈ splitlines (joinLines ls), x ∈ ls := by
  induction ls with
  | nil => simp [joinLines_nil, splitlines]
  | cons a tail ih =>
    cases tail with
    | nil =>
      rw [joinLines_single,
        splitlines_nfree_whole a (hfree a (List.mem_singleton.mpr rfl))]
      intro x hx
      split at hx
      · simp at hx
      · simp only [List.mem_singleton] at hx
        simp [hx]
    | cons b rest =>
      rw [joinLines_cons_cons,
        splitlines_append_newline a _ (hfree a (List.mem_cons_self a _))]
      intro x hx
      rcases List.mem_cons.mp hx with h | h
      · simp [h]
      · exact List.mem_cons_of_mem a
          (ih (fun l hl => hfree l (List.mem_cons_of_mem a hl)) x h)

theorem mem_set_cases (ls : List Str) (i : Nat) (a : Str) :
    ∀ x ∈ ls.set i a,
      x = a ∨ ∃ j, j < ls.length ∧ j ≠ i ∧ ls.getD j [] = x := by
  induction ls generalizing i with
  | nil => simp
  | cons l rest ih =>
    cases i with
    | zero =>
      intro x hx
      rcases List.mem_cons.mp hx with h | h
      · exact Or.inl h
      · rcases List.mem_iff_getElem.mp h with ⟨n, hn, hg⟩
        refine Or.inr ⟨n + 1, by simpa using Nat.succ_lt_succ hn, by omega, ?_⟩
        rw [List.getD_cons_succ, List.getD_eq_getElem?_getD,
          List.getElem?_eq_getElem hn, Option.getD_some, hg]
    | succ k =>
      intro x hx
      rcases List.mem_cons.mp hx with h | h
      · exact Or.inr ⟨0, by simp, by omega, by simp [h]⟩
      · rcases ih k x h with h | ⟨j, hj, hjk, hg⟩
        · exact Or.inl h
        · exact Or.inr ⟨j + 1, by simpa using Nat.succ_lt_succ hj, by omega,
            by simpa using hg⟩

theorem getD_set_ne (ls : List Str) (i j : Nat) (a : Str) (h : j ≠ i) :
    (ls.set i a).getD j [] = ls.getD j [] := by
  rw [List.getD_eq_getElem?_getD, List.getD_eq_getElem?_getD,
    List.getElem?_set_ne (Ne.symm h)]

theorem getD_nfree_of_splitlines (content : Str) (j : Nat)
    (hj : j < (splitlines content).length) :
    '\n' ∉ (splitlines content).getD j [] := by
  rw [List.getD_eq_getElem?_getD, List.getElem?_eq_getElem hj, Option.getD_some]
  exact splitlines_nfree content _ (List.getElem_mem hj)

theorem count_x_spliceMarked (o n : Str) (h : spliceMarked o n) :
    List.count 'x' n = List.count 'x' o + 1 := by
  obtain ⟨pre, post, h1, h2⟩ := h
  subst h1
  subst h2
  simp only [List.count_append]
  rw [show List.count 'x' checkedMarker = 1 from rfl,
    show List.count 'x' marker = 0 from rfl]
  omega

theorem heartbeatEmptyLoop_iff (ls : List Str) :
    heartbeatEmptyLoop ls = true ↔ ∀ l ∈ ls, lineSkippable l = true := by
  induction ls with
  | nil => simp [heartbeatEmptyLoop]
  | cons l rest ih =>
    by_cases h : lineSkippable l = true
    · simp [heartbeatEmptyLoop, h, ih]
    · simp only [heartbeatEmptyLoop, if_neg h]
      constructor
      · intro hf
        exact absurd hf (by simp)
      · intro hall
        exact absurd (hall l (List.mem_cons_self l rest)) h

/-- The wording of claim C3 for one line: after trimming whitespace the line
is empty, starts with `#`, starts with `<!--`, or is exactly one of the four
bare checkboxes. -/
def specLineSkippable (line : Str) : Prop :=
  stripChars line = [] ∨ ['#'] <+: stripChars line
    ∨ "<!--".toList <+: stripChars line ∨ stripChars line ∈ skipPatterns

/-- The wording of claim C3 for the whole content: absent (`None` or the
empty string), or every one of its lines is skippable. -/
def specHeartbeatEmpty : Option Str → Prop
  | none => True
  | some content =>
    content = [] ∨ ∀ line ∈ content.splitOn '\n', specLineSkippable line

theorem lineSkippable_iff (l : Str) :
    lineSkippable l = true ↔ specLineSkippable l := by
  simp only [lineSkippable, specLineSkippable, Bool.or_eq_true,
    List.isEmpty_iff, List.isPrefixOf_iff_prefix, List.contains, List.elem_iff]
  tauto

/-- Whether a proactive-call outcome makes `_tick` raise: any outcome other
than a returned response (service.py lines 131-138). -/
def CallOutcome.isFailure : CallOutcome → Bool
  | CallOutcome.ok _ => false
  | _ => true

/-! ## Claims -/

/-- C1, counterexample: on the file whose single line `"- [ ] a - [ ] b"`
is the unique pending line containing `"a"`, CompleteTask does not rewrite
one unchecked marker in place preserving all other text on the line:
`str.replace` rewrites both markers, so the written-back line cannot be a
single-marker splice of the original. -/
theorem C1_counterexample :
    ¬ claimC1At ("- [ ] a - [ ] b".toList) ("a".toList) := by
  intro h
  obtain ⟨newLine, hsplice, hres⟩ := h 0 (by decide) (by decide) (by decide)
  rw [show (completeTaskExecute (some ("- [ ] a - [ ] b".toList))
      ("a".toList)).1 = some ("- [x] a - [x] b".toList) from rfl] at hres
  rw [show (splitlines ("- [ ] a - [ ] b".toList)).set 0 newLine = [newLine]
      from rfl, joinLines_single] at hres
  have hnl : ("- [x] a - [x] b".toList : Str) = newLine :=
    Option.some_inj.mp hres
  rw [← hnl] at hsplice
  have hc := count_x_spliceMarked _ _ hsplice
  exact absurd hc (by decide)

/-- C1, amended: for every file in which exactly one pending task line
contains `task_content` as a substring, CompleteTask rewrites every
occurrence of the unchecked marker on that line to the checked marker
(Python `str.replace` replaces all occurrences, so when the line contains
the marker exactly once this is a single in-place splice preserving all
other text), the rewritten line contains no unchecked marker any more,
every other line of the written-back list is unchanged, and the returned
message is the success string. -/
theorem C1_complete_unique_match (content task_content : Str) (i : Nat)
    (hi : i < (splitlines content).length)
    (hm : lineMatches task_content ((splitlines content).getD i []) = true)
    (huniq : ∀ j, j < (splitlines content).length → j ≠ i →
      lineMatches task_content ((splitlines content).getD j []) = false) :
    completeTaskExecute (some content) task_content =
      (some (joinLines ((splitlines content).set i
          (markReplace ((splitlines content).getD i [])))),
        "Task marked as completed: \x27".toList ++ task_content
          ++ "\x27".toList)
    ∧ isSubstr marker (markReplace ((splitlines content).getD i [])) = false
    ∧ (∀ j, j < (splitlines content).length → j ≠ i →
        ((splitlines content).set i
            (markReplace ((splitlines content).getD i []))).getD j []
          = (splitlines content).getD j [])
    ∧ (countMarker ((splitlines content).getD i []) = 1 →
        spliceMarked ((splitlines content).getD i [])
          (markReplace ((splitlines content).getD i []))) := by
  have hprev : ∀ j, j < i →
      lineMatches task_content ((splitlines content).getD j []) = false :=
    fun j hj => huniq j (by omega) (by omega)
  have hcl := completeLines_eq_of_first task_content (splitlines content) i
    hi hm hprev
  exact ⟨by simp [completeTaskExecute, hcl], isSubstr_marker_markReplace _,
    fun j hj hji => getD_set_ne _ _ _ _ hji,
    fun hcount => spliceMarked_markReplace _ hcount⟩

/-- C1, witness: the amended theorem applied to the two-line file
`"- [ ] a\nx"` and search string `"a"`. -/
theorem C1_complete_unique_match_witness :
    completeTaskExecute (some ("- [ ] a\nx".toList)) ("a".toList) =
      (some ("- [x] a\nx".toList),
        "Task marked as completed: \x27a\x27".toList) := by
  have h := C1_complete_unique_match ("- [ ] a\nx".toList) ("a".toList) 0
    (by decide) (by decide) (by decide)
  rw [h.1]
  decide

/-- C4: when `task_content` matches several pending lines, only the first
(topmost) match is rewritten: CompleteTask writes back the lines with only
index `i` (the first match) replaced, every later line — in particular every
later matching line — is unchanged, and a later matching line still contains
the unchecked marker, so it stays pending. -/
theorem C4_first_match_only (content task_content : Str) (i : Nat)
    (hi : i < (splitlines content).length)
    (hm : lineMatches task_content ((splitlines content).getD i []) = true)
    (hfirst : ∀ j, j < i →
      lineMatches task_content ((splitlines content).getD j []) = false)
    (hmore : ∃ k, k < (splitlines content).length ∧ i < k ∧
      lineMatches task_content ((splitlines content).getD k []) = true) :
    completeTaskExecute (some content) task_content =
      (some (joinLines ((splitlines content).set i
          (markReplace ((splitlines content).getD i [])))),
        "Task marked as completed: \x27".toList ++ task_content
          ++ "\x27".toList)
    ∧ (∀ k, k < (splitlines content).length → i < k →
        ((splitlines content).set i
            (markReplace ((splitlines content).getD i []))).getD k []
          = (splitlines content).getD k [])
    ∧ (∀ k, k < (splitlines content).length → i < k →
        lineMatches task_content ((splitlines content).getD k []) = true →
        isSubstr marker (((splitlines content).set i
          (markReplace ((splitlines content).getD i []))).getD k []) = true) := by
  have hcl := completeLines_eq_of_first task_content (splitlines content) i
    hi hm hfirst
  refine ⟨by simp [completeTaskExecute, hcl],
    fun k hk hik => getD_set_ne _ _ _ _ (by omega), ?_⟩
  intro k hk hik hmk
  rw [getD_set_ne _ _ _ _ (by omega)]
  simp only [lineMatches, Bool.and_eq_true] at hmk
  exact hmk.2

/-- C4, witness: the theorem applied to the file `"- [ ] a\n- [ ] ab"` and
search string `"a"`, which matches both pending lines. -/
theorem C4_first_match_only_witness :
    completeTaskExecute (some ("- [ ] a\n- [ ] ab".toList)) ("a".toList) =
      (some ("- [x] a\n- [ ] ab".toList),
        "Task marked as completed: \x27a\x27".toList) := by
  have h := C4_first_match_only ("- [ ] a\n- [ ] ab".toList) ("a".toList) 0
    (by decide) (by decide) (by decide) ⟨1, by decide, by decide, by decide⟩
  rw [h.1]
  decide

/-- C6: after CompleteTask rewrites the unique pending line matching
`task_content`, a second call with the same string finds no line that both
contains the string and carries an unchecked marker, so it performs no write
(first component `none`) and returns the not-found message. -/
theorem C6_complete_then_not_found (content task_content : Str) (i : Nat)
    (hi : i < (splitlines content).length)
    (hm : lineMatches task_content ((splitlines content).getD i []) = true)
    (huniq : ∀ j, j < (splitlines content).length → j ≠ i →
      lineMatches task_content ((splitlines content).getD j []) = false) :
    ∃ newContent,
      (completeTaskExecute (some content) task_content).1 = some newContent
      ∧ completeTaskExecute (some newContent) task_content =
          (none, "Error: Task containing \x27".toList ++ task_content
            ++ "\x27 not found in TODO.md".toList) := by
  have hprev : ∀ j, j < i →
      lineMatches task_content ((splitlines content).getD j []) = false :=
    fun j hj => huniq j (by omega) (by omega)
  have hcl := completeLines_eq_of_first task_content (splitlines content) i
    hi hm hprev
  refine ⟨joinLines ((splitlines content).set i
    (markReplace ((splitlines content).getD i []))),
    by simp [completeTaskExecute, hcl], ?_⟩
  have hfree : ∀ l ∈ (splitlines content).set i
      (markReplace ((splitlines content).getD i [])), '\n' ∉ l := by
    intro l hl
    rcases mem_set_cases _ i _ l hl with h | ⟨j, hj, hji, hg⟩
    · subst h
      exact markReplace_nfree _ (getD_nfree_of_splitlines content i hi)
    · rw [← hg]
      exact getD_nfree_of_splitlines content j hj
  have hnone : completeLines task_content
      (splitlines (joinLines ((splitlines content).set i
        (markReplace ((splitlines content).getD i []))))) = none := by
    apply completeLines_eq_none
    intro l hl
    have hmem := mem_splitlines_joinLines _ hfree l hl
    rcases mem_set_cases _ i _ l hmem with h | ⟨j, hj, hji, hg⟩
    · subst h
      simp [lineMatches, isSubstr_marker_markReplace]
    · rw [← hg]
      exact huniq j hj hji
  simp only [completeTaskExecute]
  rw [hnone]

/-- C6, witness: the theorem applied to the one-line file `"- [ ] a"` and
search string `"a"`. -/
theorem C6_complete_then_not_found_witness :
    ∃ newContent,
      (completeTaskExecute (some ("- [ ] a".toList)) ("a".toList)).1
        = some newContent
      ∧ completeTaskExecute (some newContent) ("a".toList) =
          (none, "Error: Task containing \x27a\x27 not found in TODO.md".toList) := by
  have h := C6_complete_then_not_found ("- [ ] a".toList) ("a".toList) 0
    (by decide) (by decide) (by decide)
  exact h

/-- C5: for every non-empty description and priority in LOW, NORMAL, HIGH,
AddTask writes back the previous content (the `"# TODO\n\n"` header when the
file did not exist) followed by the single chunk
`"- [ ] [<priority>] <description>\n"`; the pre-existing content is a prefix
of the new content, the appended chunk parses as exactly one line whenever
the description carries no newline, and the returned message is the success
string. -/
theorem C5_addTask_appends (fileContent : Option Str) (task priority : Str)
    (htask : task ≠ [])
    (hprio : priority = "LOW".toList ∨ priority = "NORMAL".toList
      ∨ priority = "HIGH".toList) :
    (∀ c, fileContent = some c →
      (addTaskExecute fileContent task priority).1
        = c ++ taskLine task priority ++ ['\n'])
    ∧ (fileContent = none →
      (addTaskExecute fileContent task priority).1
        = todoHeader ++ taskLine task priority ++ ['\n'])
    ∧ fileContent.getD todoHeader <+: (addTaskExecute fileContent task priority).1
    ∧ ('\n' ∉ task →
        splitlines (taskLine task priority ++ ['\n']) = [taskLine task priority])
    ∧ (addTaskExecute fileContent task priority).2 =
        "Task added: \x27".toList ++ task ++ "\x27 with priority ".toList
          ++ priority := by
  refine ⟨?_, ?_, ?_, ?_, rfl⟩
  · intro c hc
    subst hc
    rfl
  · intro hc
    subst hc
    rfl
  · exact ⟨taskLine task priority ++ ['\n'],
      by simp [addTaskExecute, List.append_assoc]⟩
  · intro ht
    have hnf : '\n' ∉ taskLine task priority := by
      intro hmem
      simp only [taskLine, List.append_assoc, List.mem_append] at hmem
      rcases hmem with h | h | h | h
      · exact absurd h (by decide)
      · rcases hprio with hp | hp | hp <;> subst hp <;> exact absurd h (by decide)
      · exact absurd h (by decide)
      · exact ht h
    rw [show taskLine task priority ++ ['\n']
        = taskLine task priority ++ '\n' :: ([] : Str) from rfl,
      splitlines_append_newline _ _ hnf]
    rfl

/-- C5, witness: the theorem applied to a missing file, description
`"buy milk"` and priority `"HIGH"`. -/
theorem C5_addTask_appends_witness :
    (addTaskExecute none ("buy milk".toList) ("HIGH".toList)).1
      = todoHeader ++ taskLine ("buy milk".toList) ("HIGH".toList) ++ ['\n']
    ∧ splitlines (taskLine ("buy milk".toList) ("HIGH".toList) ++ ['\n'])
      = [taskLine ("buy milk".toList) ("HIGH".toList)] := by
  have h := C5_addTask_appends none ("buy milk".toList) ("HIGH".toList)
    (by decide) (Or.inr (Or.inr rfl))
  exact ⟨h.2.1 rfl, h.2.2.2.1 (by decide)⟩

/-- C8: each of the three tool operations, for every input and every
modelled I/O exception, returns one of its documented outcome strings —
success, error-prefixed, or not-found — and (being a total function whose
`except Exception` handler converts any raised exception into the returned
error string) never raises to its caller. -/
theorem C8_fail_soft :
    (∀ fileContent task priority ioError,
      addTaskResult fileContent task priority ioError =
          "Task added: \x27".toList ++ task ++ "\x27 with priority ".toList
            ++ priority
        ∨ ∃ e, addTaskResult fileContent task priority ioError =
            "Error adding task: ".toList ++ e)
    ∧ (∀ fileContent only_pending ioError,
      listTasksResult fileContent only_pending ioError =
          "No TODO.md file found. No tasks to list.".toList
        ∨ listTasksResult fileContent only_pending ioError =
            "No pending tasks found.".toList
        ∨ (∃ s, listTasksResult fileContent only_pending ioError =
            "Pending tasks:\n".toList ++ s)
        ∨ listTasksResult fileContent only_pending ioError =
            "TODO.md is empty.".toList
        ∨ (∃ s, listTasksResult fileContent only_pending ioError =
            "All tasks:\n".toList ++ s)
        ∨ (∃ e, listTasksResult fileContent only_pending ioError =
            "Error listing tasks: ".toList ++ e))
    ∧ (∀ fileContent task_content ioError,
      completeTaskResult fileContent task_content ioError =
          "Error: TODO.md file not found.".toList
        ∨ completeTaskResult fileContent task_content ioError =
            "Error: Task containing \x27".toList ++ task_content
              ++ "\x27 not found in TODO.md".toList
        ∨ completeTaskResult fileContent task_content ioError =
            "Task marked as completed: \x27".toList ++ task_content
              ++ "\x27".toList
        ∨ (∃ e, completeTaskResult fileContent task_content ioError =
            "Error completing task: ".toList ++ e)) := by
  refine ⟨?_, ?_, ?_⟩
  · intro fileContent task priority ioError
    cases ioError with
    | some e => exact Or.inr ⟨e, rfl⟩
    | none => exact Or.inl rfl
  · intro fileContent only_pending ioError
    cases ioError with
    | some e => exact Or.inr (Or.inr (Or.inr (Or.inr (Or.inr ⟨e, rfl⟩))))
    | none =>
      cases fileContent with
      | none => exact Or.inl rfl
      | some content =>
        cases only_pending with
        | true =>
          by_cases hp : (pendingLines (splitlines content)).isEmpty = true
          · refine Or.inr (Or.inl ?_)
            simp [listTasksResult, listTasksExecute, hp]
          · refine Or.inr (Or.inr (Or.inl
              ⟨joinLines (pendingLines (splitlines content)), ?_⟩))
            simp [listTasksResult, listTasksExecute, hp]
        | false =>
          by_cases hl : (splitlines content).isEmpty = true
          · refine Or.inr (Or.inr (Or.inr (Or.inl ?_)))
            simp [listTasksResult, listTasksExecute, hl]
          · refine Or.inr (Or.inr (Or.inr (Or.inr (Or.inl
              ⟨joinLines (splitlines content), ?_⟩))))
            simp [listTasksResult, listTasksExecute, hl]
  · intro fileContent task_content ioError
    cases ioError with
    | some e => exact Or.inr (Or.inr (Or.inr ⟨e, rfl⟩))
    | none =>
      cases fileContent with
      | none => exact Or.inl rfl
      | some content =>
        cases hcl : completeLines task_content (splitlines content) with
        | none =>
          refine Or.inr (Or.inl ?_)
          simp only [completeTaskResult, completeTaskExecute]
          rw [hcl]
        | some newLines =>
          refine Or.inr (Or.inr (Or.inl ?_))
          simp only [completeTaskResult, completeTaskExecute]
          rw [hcl]

/-- A callback whose three-argument call raises an exception that is not a
`TypeError`. -/
def failingCallback : Callback :=
  { call3 := fun _ _ _ => CallOutcome.otherError,
    call1 := fun _ => CallOutcome.ok [] }

/-- The tick environment of the C2 counterexample: TODO.md holds a pending
task, the proactive path is fully enabled and bound to `failingCallback`,
and HEARTBEAT.md has actionable content. -/
def envC2 : TickEnv :=
  { proactive_enabled := true,
    proactive_channel := "qq".toList,
    proactive_chat_id := "42".toList,
    on_heartbeat := some failingCallback,
    todoRead := some (some ("- [ ] task".toList)),
    heartbeatFile := some ("do something".toList) }

/-- C2, counterexample: with a proactive callback whose three-argument call
raises a non-TypeError exception, the tick does not continue to step 2 —
the exception propagates out of `_tick` before the HEARTBEAT.md check. -/
theorem C2_counterexample : ¬ ((tick envC2).reachedStep2 = true) := by
  decide

/-- C2, amended: the tick reaches step 2 exactly when the proactive step
does not raise; it raises exactly when the proactive invocation was
attempted and its final outcome (after the arity retry) is an exception;
and an exception escaping `_tick` is caught by `_run_loop`, which logs it
and continues the loop, so it is never fatal to the scheduler. -/
theorem C2_tick_step2_iff_no_proactive_raise (env : TickEnv) :
    (tick env).raised
      = ((tickProactiveOutcome env).getD (CallOutcome.ok [])).isFailure
    ∧ (tick env).reachedStep2 = !(tick env).raised
    ∧ loopStep true false true TickExc.otherExc = LoopStepResult.continues true := by
  refine ⟨?_, ?_, rfl⟩ <;>
  · rcases hpo : tickProactiveOutcome env with _ | o
    · by_cases hE : isHeartbeatEmpty env.heartbeatFile
      · simp [tick, hpo, hE, CallOutcome.isFailure]
      · rcases hcb : env.on_heartbeat with _ | cb <;>
          simp [tick, hpo, hE, hcb, CallOutcome.isFailure]
    · cases o with
      | ok r =>
        by_cases hE : isHeartbeatEmpty env.heartbeatFile
        · simp [tick, hpo, hE, CallOutcome.isFailure]
        · rcases hcb : env.on_heartbeat with _ | cb <;>
            simp [tick, hpo, hE, hcb, CallOutcome.isFailure]
      | typeError => simp [tick, hpo, CallOutcome.isFailure]
      | otherError => simp [tick, hpo, CallOutcome.isFailure]

/-- C3: `_is_heartbeat_empty` classifies content as empty if and only if the
content is absent (`None` or the empty string) or every one of its lines,
after trimming whitespace, is empty, starts with `#`, starts with `<!--`,
or is exactly one of the four bare checkbox patterns. -/
theorem C3_isHeartbeatEmpty_iff (c : Option Str) :
    isHeartbeatEmpty c = true ↔ specHeartbeatEmpty c := by
  cases c with
  | none => simp [isHeartbeatEmpty, specHeartbeatEmpty]
  | some content =>
    by_cases h : content = []
    · subst h
      simp [isHeartbeatEmpty, specHeartbeatEmpty]
    · have hne : content.isEmpty = false := by
        simpa [List.isEmpty_iff] using h
      simp only [isHeartbeatEmpty, hne, Bool.false_eq_true, if_false,
        specHeartbeatEmpty]
      rw [heartbeatEmptyLoop_iff]
      constructor
      · intro hall
        exact Or.inr (fun line hl => (lineSkippable_iff line).mp (hall line hl))
      · intro hor
        rcases hor with h0 | hall
        · exact absurd h0 h
        · exact fun line hl => (lineSkippable_iff line).mpr (hall line hl)

/-- C7: `trigger_now` with no bound callback returns nothing; with a bound
callback it first invokes the one-argument shape and returns its response;
a `TypeError` from that first attempt (the arity-mismatch signal) triggers
the other call shape with the placeholder pair `("cli", "trigger")`, whose
outcome is returned; any other exception propagates unretried. -/
theorem C7_triggerNow_contract :
    triggerNow none = none
    ∧ (∀ cb : Callback,
        (∀ r, cb.call1 HEARTBEAT_PROMPT = CallOutcome.ok r →
          triggerNow (some cb) = some (CallOutcome.ok r))
        ∧ (cb.call1 HEARTBEAT_PROMPT = CallOutcome.typeError →
          triggerNow (some cb)
            = some (cb.call3 HEARTBEAT_PROMPT ("cli".toList) ("trigger".toList)))
        ∧ (cb.call1 HEARTBEAT_PROMPT = CallOutcome.otherError →
          triggerNow (some cb) = some CallOutcome.otherError)) := by
  refine ⟨rfl, fun cb => ⟨?_, ?_, ?_⟩⟩
  · intro r h
    simp [triggerNow, h]
  · intro h
    simp [triggerNow, h]
  · intro h
    simp [triggerNow, h]

/-- C9: `stop` leaves the running flag false, the timer-task handle cleared,
and signals cancellation exactly when a task was recorded; a loop pass whose
sleep is cancelled exits without running a tick; a pass whose sleep returns
after the running flag was cleared also runs no tick and the next `while`
test exits the loop. `stop` itself is a total state update — no exception
reaches its caller. -/
theorem C9_stop_mid_sleep_exits_without_tick :
    (∀ s : SchedState,
      (stop s).1.running = false ∧ (stop s).1.hasTask = false
        ∧ (stop s).2 = s.hasTask)
    ∧ (∀ e : TickExc,
        loopStep true true false e = LoopStepResult.exitedCancelled
          ∧ (loopStep true true false e).ranTick = false)
    ∧ (∀ e : TickExc,
        loopStep true false false e = LoopStepResult.continues false
          ∧ (loopStep true false false e).ranTick = false)
    ∧ (∀ sc rs : Bool, ∀ e : TickExc,
        loopStep false sc rs e = LoopStepResult.exitedWhile
          ∧ (loopStep false sc rs e).ranTick = false) := by
  exact ⟨fun s => ⟨rfl, rfl, rfl⟩, fun e => ⟨rfl, rfl⟩, fun e => ⟨rfl, rfl⟩,
    fun sc rs e => ⟨rfl, rfl⟩⟩

/-- C10: the pending filter of ListTasks, the per-line test of CompleteTask
and the proactive scan of the tick all classify a line (or the file content)
as pending exactly when it contains the literal substring `"- [ ]"`; a
checklist line written with the `*` bullet whose remainder does not contain
that substring is never classified as pending, while any line containing
`"- [ ]"` anywhere is. -/
theorem C10_pending_is_marker_substring :
    (∀ (lines : List Str) (line : Str),
      line ∈ pendingLines lines ↔ line ∈ lines ∧ marker <:+: line)
    ∧ (∀ task_content line, lineMatches task_content line = true →
        marker <:+: line)
    ∧ (∀ task_content line, marker <:+: line → task_content <:+: line →
        lineMatches task_content line = true)
    ∧ (∀ env content, env.todoRead = some (some content) →
        (tickProactiveOutcome env).isSome = true → marker <:+: content)
    ∧ (∀ (cb : Callback) (channel chatId : Str) (hbf : Option Str)
        (content : Str), chatId ≠ [] →
        ((tickProactiveOutcome
          { proactive_enabled := true, proactive_channel := channel,
            proactive_chat_id := chatId, on_heartbeat := some cb,
            todoRead := some (some content), heartbeatFile := hbf }).isSome
            = true
          ↔ marker <:+: content))
    ∧ (∀ rest : Str, ¬ marker <:+: rest →
        ¬ marker <:+: ('*' :: ' ' :: '[' :: ' ' :: ']' :: rest))
    ∧ (∀ s : Str, isSubstr marker s = true ↔ marker <:+: s) := by
  refine ⟨?_, ?_, ?_, ?_, ?_, ?_, isSubstr_iff marker⟩
  · intro lines line
    simp [pendingLines, List.mem_filter, isSubstr_iff]
  · intro task_content line h
    simp only [lineMatches, Bool.and_eq_true, isSubstr_iff] at h
    exact h.2
  · intro task_content line hm ht
    simp only [lineMatches, Bool.and_eq_true, isSubstr_iff]
    exact ⟨ht, hm⟩
  · intro env content ht hs
    rw [← isSubstr_iff]
    by_contra hno
    rw [Bool.not_eq_true] at hno
    simp [tickProactiveOutcome, ht, hno] at hs
  · intro cb channel chatId hbf content hid
    have hidb : chatId.isEmpty = false := by
      simpa [List.isEmpty_iff] using hid
    constructor
    · intro hs
      rw [← isSubstr_iff]
      by_contra hno
      rw [Bool.not_eq_true] at hno
      simp [tickProactiveOutcome, hno, hidb] at hs
    · intro hm
      rw [← isSubstr_iff] at hm
      simp [tickProactiveOutcome, hm, hidb]
  · intro rest hno h
    rcases List.infix_cons_iff.mp h with h1 | h
    · simp only [marker, List.cons_prefix_cons] at h1
      exact absurd h1.1 (by decide)
    rcases List.infix_cons_iff.mp h with h1 | h
    · simp only [marker, List.cons_prefix_cons] at h1
      exact absurd h1.1 (by decide)
    rcases List.infix_cons_iff.mp h with h1 | h
    · simp only [marker, List.cons_prefix_cons] at h1
      exact absurd h1.1 (by decide)
    rcases List.infix_cons_iff.mp h with h1 | h
    · simp only [marker, List.cons_prefix_cons] at h1
      exact absurd h1.1 (by decide)
    rcases List.infix_cons_iff.mp h with h1 | h
    · simp only [marker, List.cons_prefix_cons] at h1
      exact absurd h1.1 (by decide)
    exact hno h

end Nanobot
